import Mathlib

/-!
Verification development for the wiki-extract-mdata repository.

The extractor (src/main.go, src/images.go) walks wiki pages, renders
attribute tables to text, inlines embedded images through an LRU-cached
fetcher, and emits one JSON object per document.  The importer
(src/importer/main.go) reads those objects, assigns sequence IDs, interns
attribute names into a key dictionary and streams entry, value and key
rows to a database sink.

External I/O (HTTP, files, the SQL driver, JSON (un)marshalling) is
abstracted as parameters; everything else is translated directly from the
Go source.  Go pointers that may be nil are modelled as `Option`; a `none`
result of a whole operation models a run-time panic.
-/

namespace WikiExtract

/-! ## JSON values (the `map[string]interface{}` records of the importer) -/

/-- A value of a decoded JSON record as the importer sees it: a string, a
nested object, or anything else (`other`), which only matters through the
failure of Go type assertions. -/
inductive JValue where
  | str (s : String)
  | obj (fields : List (String × JValue))
  | other
deriving Repr

/-- A decoded JSON object (Go `map[string]interface{}`), as an association
list with distinct keys. -/
abbrev JObj := List (String × JValue)

/-- Go map lookup `data[k]` on a JSON object. -/
def JObj.lookup : JObj → String → Option JValue
  | [], _ => none
  | p :: rest, key => if p.1 = key then some p.2 else JObj.lookup rest key

/-- Whether a `JValue` is a text value (the Go type assertion `.(string)`
succeeds). -/
def JValue.isStr : JValue → Bool
  | .str _ => true
  | _ => false

/-- Go single-form type assertion `x.(string)` on a map access result: it
panics (`none`) unless the value is present and is a string. -/
def asString : Option JValue → Option String
  | some (.str s) => some s
  | _ => none

/-- Go `strings.TrimSpace` (standard library): drop leading and trailing
whitespace characters. -/
def trimSpace (s : String) : String :=
  String.mk (((s.toList.dropWhile Char.isWhitespace).reverse.dropWhile
    Char.isWhitespace).reverse)

/-! ## Key dictionary (src/importer/main.go, `dbkey`) -/

/-- Go type `dbkey map[string]int` (src/importer/main.go line 26), modelled
as an association list in insertion order, so that `len(ks)` is the list
length and iteration order is the insertion order. -/
abbrev dbkey := List (String × Nat)

/-- Go map lookup `ks[key]`. -/
def dbkey.lookup : dbkey → String → Option Nat
  | [], _ => none
  | p :: rest, key => if p.1 = key then some p.2 else dbkey.lookup rest key

/-- Lines 74 to 79 of src/importer/main.go: trim the attribute name, return
the existing ID when present, otherwise assign `len(ks) + 1` and record the
mapping. -/
def dbkey.intern (ks : dbkey) (k : String) : dbkey × Nat :=
  let key := trimSpace k
  match ks.lookup key with
  | some id => (ks, id)
  | none => (ks ++ [(key, ks.length + 1)], ks.length + 1)

/-- One value row of the `values` relation (src/importer/main.go lines 28
to 31). -/
structure dbvalue where
  keyId : Nat
  data : String
deriving DecidableEq, Repr

/-- The reserved metadata names skipped by `dbkey.addKeys`
(src/importer/main.go line 71). -/
def reservedName (k : String) : Bool :=
  k == "_author" || k == "_title" || k == "_date"

/-- Loop body of `dbkey.addKeys` (src/importer/main.go lines 70 to 88):
skip reserved metadata names; otherwise intern the trimmed name and append
a value row whose data is the attribute's text, or the empty string when
the raw value is not text. -/
def addKeysStep (acc : dbkey × List dbvalue) (kv : String × JValue) :
    dbkey × List dbvalue :=
  if reservedName kv.1 then acc
  else
    let r := acc.1.intern kv.1
    let d := match kv.2 with
      | JValue.str s => s
      | _ => ""
    (r.1, acc.2 ++ [⟨r.2, d⟩])

/-- `dbkey.addKeys` (src/importer/main.go lines 68 to 90), returning the
grown dictionary together with the produced value rows. -/
def dbkey.addKeys (ks : dbkey) (data : JObj) : dbkey × List dbvalue :=
  data.foldl addKeysStep (ks, [])

/-- Interning a whole call sequence of names, returning the final
dictionary and the assigned IDs in call order. -/
def internAll (names : List String) (ks : dbkey) : dbkey × List Nat :=
  match names with
  | [] => (ks, [])
  | n :: rest =>
      let r := ks.intern n
      let r2 := internAll rest r.1
      (r2.1, r.2 :: r2.2)

/-! ## Entry generation (src/importer/main.go, `entryGen`) -/

/-- One row of the `entries` relation (src/importer/main.go lines 17 to 24).
The Go zero values are the empty string and the zero `time.Time`, the latter
modelled as `none`. -/
structure dbentry where
  id : Nat
  titleText : String
  titleUrl : String
  authorName : String
  authorUrl : String
  date : Option String
deriving DecidableEq, Repr

/-- Author block of `entryGen.parse` (src/importer/main.go lines 49 to 53):
when `"_author"` is an object, the single-form type assertions on its
`name` and `url` fields must succeed (`none` models the panic); when it is
absent or not an object the fields keep their zero value. -/
def parseAuthor (data : JObj) : Option (String × String) :=
  match data.lookup "_author" with
  | some (.obj author) =>
      match asString (author.lookup "name"), asString (author.lookup "url") with
      | some n, some u => some (n, u)
      | _, _ => none
  | _ => some ("", "")

/-- Title block of `entryGen.parse` (src/importer/main.go lines 54 to 58),
analogous to the author block with the `text` and `url` fields. -/
def parseTitle (data : JObj) : Option (String × String) :=
  match data.lookup "_title" with
  | some (.obj title) =>
      match asString (title.lookup "text"), asString (title.lookup "url") with
      | some t, some u => some (t, u)
      | _, _ => none
  | _ => some ("", "")

/-- Date block of `entryGen.parse` (src/importer/main.go lines 59 to 64):
when `"_date"` is a string, parse it with the RFC3339 parser `parseDate`
(Go `time.Parse`, external library code, passed as a parameter whose `none`
result models a parse error); an invalid or absent date is silently
ignored, leaving the zero date. -/
def parseDateField (parseDate : String → Option String) (data : JObj) :
    Option String :=
  match data.lookup "_date" with
  | some (.str d) => parseDate d
  | _ => none

/-- `entryGen.parse` (src/importer/main.go lines 47 to 66), building the
entry row for a decoded record; `none` models the panic of a failing type
assertion in the author or title block. -/
def entryGen.parse (parseDate : String → Option String) (data : JObj)
    (id : Nat) : Option dbentry :=
  match parseAuthor data, parseTitle data with
  | some a, some t =>
      some ⟨id, t.1, t.2, a.1, a.2, parseDateField parseDate data⟩
  | _, _ => none

/-- Whether `entryGen.parse` succeeds on a record (it panics only in the
author and title blocks). -/
def parseOk (data : JObj) : Bool :=
  (parseAuthor data).isSome && (parseTitle data).isSome

/-- `entryGen.generate` (src/importer/main.go lines 41 to 45): draw the
current `nextID`, parse, and increment the counter. -/
def entryGen.generate (parseDate : String → Option String) (nextID : Nat)
    (data : JObj) : Option dbentry × Nat :=
  (entryGen.parse parseDate data nextID, nextID + 1)

/-! ## Importer main loop (src/importer/main.go lines 172 to 213) -/

/-- A message sent to the database sink goroutine (the `storer` interface
values sent on the `db` channel). -/
inductive storer where
  | entry (e : dbentry)
  | vals (vs : List dbvalue)
  | keys (ks : dbkey)
deriving DecidableEq, Repr

/-- Whether a sink message is the keys relation. -/
def storer.isKeys : storer → Bool
  | .keys _ => true
  | _ => false

/-- The entry ID carried by a sink message, when it is an entry row. -/
def storer.entryId : storer → Option Nat
  | .entry e => some e.id
  | _ => none

/-- The read loop of the importer `main` (src/importer/main.go lines 192
to 209) over the already-unmarshalled JSON records, followed by the final
keys message (line 210).  For each record the entry row is generated and
sent, then `addKeys` grows the dictionary and the value rows are sent.  A
parse panic kills the process: nothing further is emitted and the keys
message is never sent. -/
def importerLoop (parseDate : String → Option String) :
    List JObj → Nat → dbkey → List storer
  | [], _, ks => [storer.keys ks]
  | data :: rest, nextID, ks =>
      match entryGen.generate parseDate nextID data with
      | (none, _) => []
      | (some e, nextID2) =>
          let r := ks.addKeys data
          storer.entry e :: storer.vals r.2 ::
            importerLoop parseDate rest nextID2 r.1

/-- The importer `main` (src/importer/main.go lines 172 to 213): counter
seeded at 1 (`newEntryGen`, line 38), empty key dictionary (line 189). -/
def importerMain (parseDate : String → Option String) (docs : List JObj) :
    List storer :=
  importerLoop parseDate docs 1 []

/-- The key dictionary after interning all documents, starting from the
empty dictionary — the state persisted as the keys relation. -/
def finalKeys (docs : List JObj) : dbkey :=
  docs.foldl (fun ks data => (ks.addKeys data).1) []

/-! ## Fetched resources and the LRU cache (src/images.go) -/

/-- A fetched resource: content type plus raw bytes (src/images.go lines 15
to 18). -/
structure mimed where
  mime : String
  data : List Nat
deriving DecidableEq, Repr

/-- Association-list lookup by string key (first match wins). -/
def assocFind {α : Type} : List (String × α) → String → Option α
  | [], _ => none
  | p :: rest, key => if p.1 = key then some p.2 else assocFind rest key

/-- Modelled from the spec: the `lru` package of this repository is not
under src/.  Per the spec, `lru.Cache` is a bounded least-recently-used
cache from string keys to values; it holds at most `cap` entries.  Entries
are kept most-recently-used first. -/
structure lru.Cache (α : Type) where
  cap : Nat
  entries : List (String × α)
deriving Repr

/-- Modelled from the spec: `Get` returns the cached value on a hit and
promotes the entry to most recently used; a miss reports `none` and leaves
the cache unchanged. -/
def lru.Cache.Get {α : Type} (c : lru.Cache α) (key : String) :
    Option α × lru.Cache α :=
  match assocFind c.entries key with
  | none => (none, c)
  | some v =>
      (some v, ⟨c.cap, (key, v) :: c.entries.filter (fun e => e.1 != key)⟩)

/-- Modelled from the spec: `Add` inserts the entry as most recently used,
evicting the least-recently-used entry when the cache is at capacity. -/
def lru.Cache.Add {α : Type} (c : lru.Cache α) (key : String) (v : α) :
    lru.Cache α :=
  ⟨c.cap, ((key, v) :: c.entries.filter (fun e => e.1 != key)).take c.cap⟩

/-- `imgproc.fetch` (src/images.go lines 90 to 107).  The network call
`newMimedFromUrl` is external I/O abstracted as `net`; `Except.error`
models a non-nil Go error, in which case the returned `*mimed` pointer is
nil (`none`).  On a cache hit the stored pointer is returned with a nil
error.  On a miss the fetch runs, and the result is added to the cache
exactly when `err != nil` — the source caches the nil pointer of a failed
fetch and does not cache a successful one. -/
def imgproc.fetch (net : String → Except String mimed)
    (c : lru.Cache (Option mimed)) (url : String) :
    (Option mimed × Option String) × lru.Cache (Option mimed) :=
  match c.Get url with
  | (some m, c2) => ((m, none), c2)
  | (none, c2) =>
      match net url with
      | .ok m => ((some m, none), c2)
      | .error e => ((none, some e), c2.Add url none)

/-- `imgproc.get` (src/images.go lines 70 to 82) submits the fetch as a
unit of work to the worker pool and blocks on its completion signal; the
result handed back is exactly the result of `fetch`. -/
def imgproc.get (net : String → Except String mimed)
    (c : lru.Cache (Option mimed)) (url : String) :
    (Option mimed × Option String) × lru.Cache (Option mimed) :=
  imgproc.fetch net c url

/-! ## Base64 and the data-URI writer (src/images.go `mimed.WriteTo`) -/

/-- The character table of Go `encoding/base64` `StdEncoding` (RFC 4648). -/
def base64Table : List Char :=
  "ABCDEFGHIJKLMNOPQRSTUVWXYZabcdefghijklmnopqrstuvwxyz0123456789+/".toList

/-- The base64 digit for a 6-bit group. -/
def b64c (n : Nat) : Char := base64Table.getD (n % 64) 'A'

/-- Standard base64 with padding of a byte sequence, as produced by the Go
`base64.NewEncoder(base64.StdEncoding, w)` / `Close` pair. -/
def base64Encode : List Nat → String
  | [] => ""
  | [b1] => String.mk [b64c (b1 / 4), b64c (b1 % 4 * 16), '=', '=']
  | [b1, b2] =>
      String.mk [b64c (b1 / 4), b64c (b1 % 4 * 16 + b2 / 16),
        b64c (b2 % 16 * 4), '=']
  | b1 :: b2 :: b3 :: rest =>
      String.mk [b64c (b1 / 4), b64c (b1 % 4 * 16 + b2 / 16),
        b64c (b2 % 16 * 4 + b3 / 64), b64c (b3 % 64)] ++ base64Encode rest

/-- `mimed.WriteTo` (src/images.go lines 39 to 51) rendered into a string:
`data:<mime>;base64,<payload>`.  The receiver is a Go pointer; calling it
on a nil receiver (`none`) panics reading `i.mime`, modelled as `none`. -/
def mimed.WriteTo : Option mimed → Option String
  | none => none
  | some m => some ("data:" ++ m.mime ++ ";base64," ++ base64Encode m.data)

/-- `imageTo.WriteTo` (src/main.go lines 58 to 70): wrap the data URI of
the held image pointer in an `img` tag; a nil pointer panics inside
`mimed.WriteTo` (`none`). -/
def imageTo.WriteTo (img : Option mimed) : Option String :=
  match mimed.WriteTo img with
  | none => none
  | some s => some ("<img src=\"" ++ s ++ "\" />")

/-! ## Text rendering (src/main.go `processor.renderText`) -/

/-- An HTML node as `renderText` distinguishes them: a text node, an
element with a tag, attributes and children, or any other node kind
(document, comment, ...) which contributes nothing of its own and only has
its children rendered. -/
inductive HNode where
  | text (data : String)
  | elem (tag : String) (attrs : List (String × String)) (children : List HNode)
  | container (children : List HNode)

/-- `nodeGetAttr` (src/main.go lines 19 to 26): the trimmed value of the
first attribute with the given key, or the empty string. -/
def nodeGetAttr (attrs : List (String × String)) (attr : String) : String :=
  match assocFind attrs attr with
  | some v => trimSpace v
  | none => ""

/-- The `before`/`after` strings chosen by the element switch of
`processor.renderText` (src/main.go lines 96 to 125).  The shared image
fetcher is abstracted as `get`, giving the payload/error pair
`p.imgproc.get` returns for each URL during this render.  A fetch error is
replaced by the literal marker `" [image unavailable] "`; on a nil error
the held pointer is rendered by `imageTo.WriteTo`, whose panic on a nil
pointer propagates as `none`. -/
def elemWraps (get : String → Option mimed × Option String)
    (domain tag : String) (attrs : List (String × String)) :
    Option (String × String) :=
  match tag with
  | "li" => some ("\t* ", "\n")
  | "br" => some ("\n", "")
  | "a" =>
      let href := nodeGetAttr attrs "href"
      if href = "" then some ("", "")
      else some (" <a href=\"" ++ href ++ "\">", "</a> ")
  | "img" =>
      let src := nodeGetAttr attrs "src"
      if src = "" then some ("", "")
      else
        match get (domain ++ src) with
        | (_, some _) => some (" [image unavailable] ", "")
        | (m, none) =>
            match imageTo.WriteTo m with
            | none => none
            | some s => some (s, "")
  | _ => some (" ", " ")

mutual

/-- `processor.renderText` (src/main.go lines 86 to 142) accumulated into a
string: a text node contributes its trimmed data; an element writes its
`before` string, its rendered children, then its `after` string; any other
node renders only its children.  A `none` result models the nil-pointer
panic reached through a poisoned image cache entry. -/
def renderText (get : String → Option mimed × Option String)
    (domain : String) : HNode → Option String
  | .text d => some (trimSpace d)
  | .elem tag attrs children =>
      match elemWraps get domain tag attrs with
      | none => none
      | some ba =>
          match renderChildren get domain children with
          | none => none
          | some mid => some (ba.1 ++ mid ++ ba.2)
  | .container children => renderChildren get domain children

/-- The child loop of `processor.renderText` (src/main.go lines 131 to
135). -/
def renderChildren (get : String → Option mimed × Option String)
    (domain : String) : List HNode → Option String
  | [] => some ""
  | n :: rest =>
      match renderText get domain n with
      | none => none
      | some s =>
          match renderChildren get domain rest with
          | none => none
          | some t => some (s ++ t)

end

/-! ## Page processing loop (src/main.go `processor.process`) -/

/-- Outcome of the worker loop: the outputs emitted on the `out` channel,
or process termination through `log.Fatalf`. -/
inductive procOutcome where
  | ok (outputs : List String)
  | fatal (msg : String)
deriving DecidableEq, Repr

/-- `processor.process` (src/main.go lines 256 to 280) for one worker's
stream of URLs.  Reading a page (`fileReader` or `pageReader`, chosen by
the URL scheme — both external I/O) is abstracted as `readPage`; the
extraction `processPage` likewise returns an error for a failed render or
marshal.  A read failure is logged and the URL skipped (`continue`); an
extraction failure calls `log.Fatalf`, terminating the whole process, so
the remaining URLs are never processed. -/
def processor.process (readPage : String → Except String String)
    (processPage : String → Except String String) :
    List String → List String → procOutcome
  | [], acc => .ok acc
  | url :: rest, acc =>
      match readPage url with
      | .error _ => processor.process readPage processPage rest acc
      | .ok content =>
          match processPage content with
          | .error e => .fatal e
          | .ok data =>
              processor.process readPage processPage rest (acc ++ [data])

/-! ## Shared example inputs -/

/-- A date parser that rejects every string. -/
def pdNone : String → Option String := fun _ => none

/-- Example corpus: two documents sharing the attribute name `Owner`. -/
def docsEx : List JObj :=
  [[("Owner", JValue.str "Alice")],
   [("Owner", JValue.str "Bob"), ("Team", JValue.str "X")]]

/-! ## Theorems -/

/-- C3: `intern` trims surrounding whitespace first; a name already in the
dictionary keeps its existing ID and the dictionary is unchanged, a new
name gets `currentSize + 1`; interning the call sequence
`b, a, b, c` yields IDs 1, 2, 1, 3 and the dictionary mapping b to 1, a
to 2, c to 3; re-interning `b` returns 1, and interning `" b "` (with
whitespace) also returns 1. -/
theorem intern_spec :
    (∀ (ks : dbkey) (k : String) (id : Nat),
        ks.lookup (trimSpace k) = some id → ks.intern k = (ks, id)) ∧
    (∀ (ks : dbkey) (k : String),
        ks.lookup (trimSpace k) = none →
        ks.intern k = (ks ++ [(trimSpace k, ks.length + 1)], ks.length + 1)) ∧
    internAll ["b", "a", "b", "c"] [] =
      ([("b", 1), ("a", 2), ("c", 3)], [1, 2, 1, 3]) ∧
    (dbkey.intern [("b", 1), ("a", 2), ("c", 3)] "b").2 = 1 ∧
    (dbkey.intern [("b", 1), ("a", 2), ("c", 3)] " b ").2 = 1 := by
  refine ⟨?_, ?_, by decide, by decide, by decide⟩
  · intro ks k id h
    simp [dbkey.intern, h]
  · intro ks k h
    simp [dbkey.intern, h]

/-- Witness for C3 at concrete inputs: a whitespace-padded known name is a
hit, a fresh name gets the next ID. -/
theorem intern_spec_witness :
    dbkey.intern [("b", 1), ("a", 2), ("c", 3)] " b " =
        ([("b", 1), ("a", 2), ("c", 3)], 1) ∧
    dbkey.intern [("b", 1)] "d" = ([("b", 1), ("d", 2)], 2) :=
  ⟨intern_spec.1 [("b", 1), ("a", 2), ("c", 3)] " b " 1 (by decide),
   intern_spec.2.1 [("b", 1)] "d" (by decide)⟩

/-- C6: an attribute whose name is exactly one of the reserved metadata
names `_author`, `_title`, `_date` is skipped by `addKeys` wherever it
occurs in the record: it is never interned and produces no value row. -/
theorem reserved_names_not_interned :
    ∀ (ks : dbkey) (d1 d2 : JObj) (k : String) (v : JValue),
      reservedName k = true →
      dbkey.addKeys ks (d1 ++ (k, v) :: d2) = dbkey.addKeys ks (d1 ++ d2) := by
  intro ks d1 d2 k v h
  unfold dbkey.addKeys
  rw [List.foldl_append, List.foldl_append, List.foldl_cons]
  simp [addKeysStep, h]

/-- Witness for C6: a record carrying a literal `_title` attribute yields
the same dictionary and value rows as the record without it. -/
theorem reserved_names_not_interned_witness :
    dbkey.addKeys []
        [("Owner", JValue.str "Alice"), ("_title", JValue.other),
          ("Team", JValue.str "X")] =
      dbkey.addKeys [] [("Owner", JValue.str "Alice"), ("Team", JValue.str "X")] :=
  reserved_names_not_interned [] [("Owner", JValue.str "Alice")]
    [("Team", JValue.str "X")] "_title" JValue.other (by decide)

/-- Helper for C7: the number of value rows produced by the `addKeys` fold
is the number of non-reserved attributes, independent of the starting
dictionary and rows. -/
theorem foldl_addKeysStep_length :
    ∀ (data : JObj) (ks : dbkey) (vs : List dbvalue),
      ((data.foldl addKeysStep (ks, vs)).2).length =
        vs.length + (data.filter (fun kv => !reservedName kv.1)).length := by
  intro data
  induction data with
  | nil => intro ks vs; simp
  | cons kv rest ih =>
      intro ks vs
      cases hr : reservedName kv.1 with
      | true => simp [addKeysStep, hr, ih, List.filter_cons]
      | false =>
          rw [List.foldl_cons]
          have hstep : addKeysStep (ks, vs) kv =
              ((ks.intern kv.1).1, vs ++ [⟨(ks.intern kv.1).2,
                match kv.2 with | JValue.str s => s | _ => ""⟩]) := by
            simp [addKeysStep, hr]
          rw [hstep, ih]
          simp [List.filter_cons, hr]
          omega

/-- C7: a dynamic attribute whose raw value is not text is not rejected:
`addKeys` still interns its name and appends a value row whose data is the
empty string, and in general the number of value rows equals the number of
non-reserved attributes of the record. -/
theorem nontext_value_stored_empty :
    (∀ (ks : dbkey) (vs : List dbvalue) (k : String) (v : JValue),
        reservedName k = false → v.isStr = false →
        addKeysStep (ks, vs) (k, v) =
          ((ks.intern k).1, vs ++ [⟨(ks.intern k).2, ""⟩])) ∧
    (∀ (ks : dbkey) (data : JObj),
        ((dbkey.addKeys ks data).2).length =
          (data.filter (fun kv => !reservedName kv.1)).length) := by
  constructor
  · intro ks vs k v h1 h2
    cases v with
    | str s => simp [JValue.isStr] at h2
    | obj f => simp [addKeysStep, h1]
    | other => simp [addKeysStep, h1]
  · intro ks data
    unfold dbkey.addKeys
    rw [foldl_addKeysStep_length]
    simp

/-- Witness for C7: a non-text attribute value (a nested object) produces a
value row with empty data, and no attribute is dropped. -/
theorem nontext_value_stored_empty_witness :
    addKeysStep ([], []) ("Logo", JValue.other) = ([("Logo", 1)], [⟨1, ""⟩]) ∧
    ((dbkey.addKeys [] [("Logo", JValue.other), ("_date", JValue.str "x")]).2).length = 1 :=
  ⟨nontext_value_stored_empty.1 [] [] "Logo" JValue.other (by decide) rfl,
   nontext_value_stored_empty.2 [] [("Logo", JValue.other), ("_date", JValue.str "x")]⟩

/-- A record passing `parseOk` parses to an entry carrying the given ID. -/
theorem parseOk_parse (pd : String → Option String) (data : JObj) (n : Nat)
    (h : parseOk data = true) :
    ∃ e, entryGen.parse pd data n = some e ∧ e.id = n := by
  unfold parseOk at h
  rw [Bool.and_eq_true, Option.isSome_iff_exists, Option.isSome_iff_exists] at h
  obtain ⟨⟨a, ha⟩, ⟨t, ht⟩⟩ := h
  refine ⟨⟨n, t.1, t.2, a.1, a.2, parseDateField pd data⟩, ?_, rfl⟩
  unfold entryGen.parse
  rw [ha, ht]

/-- Helper for C4: the entry IDs emitted by the importer loop count up from
the current counter value, one per record. -/
theorem importerLoop_entryIds (pd : String → Option String) :
    ∀ (docs : List JObj) (n : Nat) (ks : dbkey),
      (∀ d ∈ docs, parseOk d = true) →
      (importerLoop pd docs n ks).filterMap storer.entryId =
        List.range' n docs.length := by
  intro docs
  induction docs with
  | nil => intro n ks h; simp [importerLoop, storer.entryId]
  | cons d rest ih =>
      intro n ks h
      obtain ⟨e, he, hid⟩ := parseOk_parse pd d n (h d (by simp))
      have hgen : entryGen.generate pd n d = (some e, n + 1) := by
        unfold entryGen.generate
        rw [he]
      have hl : importerLoop pd (d :: rest) n ks =
          storer.entry e :: storer.vals (ks.addKeys d).2 ::
            importerLoop pd rest (n + 1) (ks.addKeys d).1 := by
        conv_lhs => rw [importerLoop]
        rw [hgen]
      rw [hl]
      rw [List.filterMap_cons, List.filterMap_cons]
      simp only [storer.entryId]
      rw [ih (n + 1) (ks.addKeys d).1 (fun d2 hd2 => h d2 (by simp [hd2]))]
      rw [hid, List.length_cons, List.range'_succ]

/-- C4: the sequence counter is seeded at 1 and incremented once per
generated record, so a run over N documents emits entry rows whose IDs are
exactly 1, 2, ..., N in emission order — no duplicates and no gaps. -/
theorem sequence_ids_exact (pd : String → Option String) (docs : List JObj)
    (h : ∀ d ∈ docs, parseOk d = true) :
    (importerMain pd docs).filterMap storer.entryId =
      List.range' 1 docs.length :=
  importerLoop_entryIds pd docs 1 [] h

/-- Witness for C4 on the two-document example corpus. -/
theorem sequence_ids_exact_witness :
    (importerMain pdNone docsEx).filterMap storer.entryId =
      List.range' 1 docsEx.length :=
  sequence_ids_exact pdNone docsEx (by decide)

/-- A key present in the dictionary is still present, with the same ID,
after appending entries. -/
theorem dbkey.lookup_append_some :
    ∀ (ks l : dbkey) (key : String) (id : Nat),
      ks.lookup key = some id → dbkey.lookup (ks ++ l) key = some id := by
  intro ks l key id h
  induction ks with
  | nil => simp [dbkey.lookup] at h
  | cons p rest ih =>
      rw [List.cons_append]
      unfold dbkey.lookup at h ⊢
      by_cases hp : p.1 = key
      · rw [if_pos hp] at h ⊢; exact h
      · rw [if_neg hp] at h ⊢; exact ih h

/-- A key absent from the dictionary is found after appending it. -/
theorem dbkey.lookup_append_self :
    ∀ (ks : dbkey) (key : String) (n : Nat),
      ks.lookup key = none → dbkey.lookup (ks ++ [(key, n)]) key = some n := by
  intro ks key n h
  induction ks with
  | nil => simp [dbkey.lookup]
  | cons p rest ih =>
      rw [List.cons_append]
      unfold dbkey.lookup at h ⊢
      by_cases hp : p.1 = key
      · rw [if_pos hp] at h; exact absurd h (by simp)
      · rw [if_neg hp] at h ⊢; exact ih h

/-- After interning a name, its trimmed form is in the dictionary. -/
theorem intern_lookup_isSome (ks : dbkey) (k : String) :
    (((ks.intern k).1).lookup (trimSpace k)).isSome = true := by
  unfold dbkey.intern
  cases hl : ks.lookup (trimSpace k) with
  | some id => simp [hl]
  | none => simp [hl, dbkey.lookup_append_self ks (trimSpace k) _ hl]

/-- Interning never removes or reassigns an existing mapping. -/
theorem intern_mono (ks : dbkey) (k key : String) (id : Nat)
    (h : ks.lookup key = some id) : ((ks.intern k).1).lookup key = some id := by
  unfold dbkey.intern
  cases hl : ks.lookup (trimSpace k) with
  | some i => simp only [hl]; exact h
  | none => simp only [hl]; exact dbkey.lookup_append_some ks _ key id h

/-- The `addKeys` fold never removes or reassigns an existing mapping. -/
theorem addKeys_fold_mono :
    ∀ (data : JObj) (acc : dbkey × List dbvalue) (key : String) (id : Nat),
      acc.1.lookup key = some id →
      ((data.foldl addKeysStep acc).1).lookup key = some id := by
  intro data
  induction data with
  | nil => intro acc key id h; exact h
  | cons kv rest ih =>
      intro acc key id h
      rw [List.foldl_cons]
      apply ih
      cases hr : reservedName kv.1 with
      | true => simpa [addKeysStep, hr] using h
      | false =>
          have : (addKeysStep acc kv).1 = (acc.1.intern kv.1).1 := by
            simp [addKeysStep, hr]
          rw [this]
          exact intern_mono acc.1 kv.1 key id h

/-- Every non-reserved attribute of a record is in the dictionary after the
`addKeys` fold over that record. -/
theorem addKeys_fold_present :
    ∀ (data : JObj) (acc : dbkey × List dbvalue) (k : String) (v : JValue),
      (k, v) ∈ data → reservedName k = false →
      (((data.foldl addKeysStep acc).1).lookup (trimSpace k)).isSome = true := by
  intro data
  induction data with
  | nil => intro acc k v h; exact absurd h (by simp)
  | cons kv rest ih =>
      intro acc k v hmem hres
      rw [List.foldl_cons]
      rcases List.mem_cons.mp hmem with heq | hmem2
      · subst heq
        have hstep : (addKeysStep acc (k, v)).1 = (acc.1.intern k).1 := by
          simp [addKeysStep, hres]
        have hpres := intern_lookup_isSome acc.1 k
        rw [Option.isSome_iff_exists] at hpres
        obtain ⟨id, hid⟩ := hpres
        have hmono := addKeys_fold_mono rest (addKeysStep acc (k, v))
          (trimSpace k) id (by rw [hstep]; exact hid)
        simp [hmono]
      · exact ih _ k v hmem2 hres

/-- The dictionary fold over whole documents never removes or reassigns an
existing mapping. -/
theorem finalKeys_fold_mono :
    ∀ (docs : List JObj) (ks : dbkey) (key : String) (id : Nat),
      ks.lookup key = some id →
      (docs.foldl (fun a d => (a.addKeys d).1) ks).lookup key = some id := by
  intro docs
  induction docs with
  | nil => intro ks key id h; exact h
  | cons d rest ih =>
      intro ks key id h
      rw [List.foldl_cons]
      exact ih _ key id (addKeys_fold_mono d (ks, []) key id h)

/-- Every non-reserved attribute of every document is in the dictionary
after the fold over all documents. -/
theorem finalKeys_fold_present :
    ∀ (docs : List JObj) (ks : dbkey) (d : JObj), d ∈ docs →
      ∀ (k : String) (v : JValue), (k, v) ∈ d → reservedName k = false →
      ((docs.foldl (fun a dd => (a.addKeys dd).1) ks).lookup
        (trimSpace k)).isSome = true := by
  intro docs
  induction docs with
  | nil => intro ks d h; exact absurd h (by simp)
  | cons d0 rest ih =>
      intro ks d hmem k v hkv hres
      rw [List.foldl_cons]
      rcases List.mem_cons.mp hmem with heq | hmem2
      · subst heq
        have hp := addKeys_fold_present d (ks, []) k v hkv hres
        rw [Option.isSome_iff_exists] at hp
        obtain ⟨id, hid⟩ := hp
        have := finalKeys_fold_mono rest (ks.addKeys d).1 (trimSpace k) id hid
        simp [this]
      · exact ih _ d hmem2 k v hkv hres

/-- Helper for C5: with every record parsing, the importer loop emits a
block of entry and value messages followed by exactly one keys message
holding the dictionary grown over all records. -/
theorem importerLoop_split (pd : String → Option String) :
    ∀ (docs : List JObj) (n : Nat) (ks : dbkey),
      (∀ d ∈ docs, parseOk d = true) →
      ∃ body,
        importerLoop pd docs n ks =
          body ++ [storer.keys (docs.foldl (fun a d => (a.addKeys d).1) ks)] ∧
        ∀ s ∈ body, s.isKeys = false := by
  intro docs
  induction docs with
  | nil =>
      intro n ks h
      exact ⟨[], by simp [importerLoop], by simp⟩
  | cons d rest ih =>
      intro n ks h
      obtain ⟨e, he, _⟩ := parseOk_parse pd d n (h d (by simp))
      have hgen : entryGen.generate pd n d = (some e, n + 1) := by
        unfold entryGen.generate
        rw [he]
      obtain ⟨body, hb, hbk⟩ :=
        ih (n + 1) (ks.addKeys d).1 (fun d2 hd2 => h d2 (by simp [hd2]))
      refine ⟨storer.entry e :: storer.vals (ks.addKeys d).2 :: body, ?_, ?_⟩
      · have hl : importerLoop pd (d :: rest) n ks =
            storer.entry e :: storer.vals (ks.addKeys d).2 ::
              importerLoop pd rest (n + 1) (ks.addKeys d).1 := by
          conv_lhs => rw [importerLoop]
          rw [hgen]
        rw [hl, hb]
        simp
      · intro s hs
        rcases List.mem_cons.mp hs with h1 | hs2
        · subst h1; rfl
        rcases List.mem_cons.mp hs2 with h2 | hs3
        · subst h2; rfl
        · exact hbk s hs3

/-- C5: with every record parsing, the keys relation is sent to the sink
exactly once, as the final message after all entry and value rows, its
payload is the dictionary's final state, and it contains every
non-reserved attribute name discovered by any document. -/
theorem keys_flushed_once_after_all (pd : String → Option String)
    (docs : List JObj) (h : ∀ d ∈ docs, parseOk d = true) :
    (importerMain pd docs).filter storer.isKeys =
        [storer.keys (finalKeys docs)] ∧
    (importerMain pd docs).getLast? = some (storer.keys (finalKeys docs)) ∧
    ∀ d ∈ docs, ∀ (k : String) (v : JValue), (k, v) ∈ d →
      reservedName k = false →
      ((finalKeys docs).lookup (trimSpace k)).isSome = true := by
  obtain ⟨body, hb, hbk⟩ := importerLoop_split pd docs 1 [] h
  have hmain : importerMain pd docs = body ++ [storer.keys (finalKeys docs)] := hb
  refine ⟨?_, ?_, ?_⟩
  · rw [hmain, List.filter_append]
    have hnil : body.filter storer.isKeys = [] := by
      rw [List.filter_eq_nil_iff]
      intro a ha
      simp [hbk a ha]
    rw [hnil]
    simp [storer.isKeys]
  · rw [hmain]
    rw [List.getLast?_append]
    rfl
  · intro d hd k v hkv hres
    exact finalKeys_fold_present docs [] d hd k v hkv hres

/-- Witness for C5 on the two-document example corpus. -/
theorem keys_flushed_once_after_all_witness :
    (importerMain pdNone docsEx).filter storer.isKeys =
        [storer.keys (finalKeys docsEx)] ∧
    (importerMain pdNone docsEx).getLast? =
        some (storer.keys (finalKeys docsEx)) ∧
    ∀ d ∈ docsEx, ∀ (k : String) (v : JValue), (k, v) ∈ d →
      reservedName k = false →
      ((finalKeys docsEx).lookup (trimSpace k)).isSome = true :=
  keys_flushed_once_after_all pdNone docsEx (by decide)

/-- C8: a record whose date field is absent or whose date string the
RFC3339 parser rejects still normalizes (given its author and title blocks
are well formed): the entry is produced with the zero date, and the parse
never fails because of the date. -/
theorem unparsable_date_record_kept (pd : String → Option String)
    (data : JObj) (id : Nat) (hok : parseOk data = true)
    (hdate : data.lookup "_date" = none ∨
      ∃ d, data.lookup "_date" = some (JValue.str d) ∧ pd d = none) :
    ∃ e, entryGen.parse pd data id = some e ∧ e.id = id ∧ e.date = none := by
  have hdf : parseDateField pd data = none := by
    unfold parseDateField
    rcases hdate with h | ⟨d, h1, h2⟩
    · rw [h]
    · rw [h1]; exact h2
  obtain ⟨e, he, hid⟩ := parseOk_parse pd data id hok
  refine ⟨e, he, hid, ?_⟩
  unfold parseOk at hok
  rw [Bool.and_eq_true, Option.isSome_iff_exists, Option.isSome_iff_exists] at hok
  obtain ⟨⟨a, ha⟩, ⟨t, ht⟩⟩ := hok
  unfold entryGen.parse at he
  rw [ha, ht] at he
  cases he
  exact hdf

/-- Witness for C8: a record with an unparsable date string and one with no
date at all both normalize with the zero date. -/
theorem unparsable_date_record_kept_witness :
    (∃ e, entryGen.parse pdNone
        [("_date", JValue.str "not a date"), ("Owner", JValue.str "Alice")] 7 =
        some e ∧ e.id = 7 ∧ e.date = none) ∧
    ∃ e, entryGen.parse pdNone [("Owner", JValue.str "Alice")] 8 =
        some e ∧ e.id = 8 ∧ e.date = none :=
  ⟨unparsable_date_record_kept pdNone
      [("_date", JValue.str "not a date"), ("Owner", JValue.str "Alice")] 7
      rfl (Or.inr ⟨"not a date", rfl, rfl⟩),
   unparsable_date_record_kept pdNone [("Owner", JValue.str "Alice")] 8
      rfl (Or.inl rfl)⟩

/-! ## The resource cache claims (src/images.go) -/

/-- A network fetcher that always fails, as when the image host is down. -/
def netFailEx : String → Except String mimed :=
  fun _ => Except.error "cannot GET: connection refused"

/-- A network fetcher that always succeeds with a small PNG payload. -/
def netOkEx : String → Except String mimed :=
  fun _ => Except.ok ⟨"image/png", [77]⟩

/-- The cache as `newImgproc` builds it (src/main.go line 317): capacity
256, empty. -/
def emptyCacheEx : lru.Cache (Option mimed) := ⟨256, []⟩

/-- C1: evaluation of `imgproc.fetch` at a key whose fetch fails, against
the claim that failures are never cached.  The failing fetch returns the
error, but it also inserts the nil payload into the cache under the key,
and a subsequent fetch for the same key — even with the underlying source
now succeeding — is a cache hit returning the nil payload with a nil
error, never re-attempting the network fetch. -/
theorem fetch_failure_is_cached :
    (imgproc.fetch netFailEx emptyCacheEx "http://wiki.local/a.png").1 =
        (none, some "cannot GET: connection refused") ∧
    assocFind
        (imgproc.fetch netFailEx emptyCacheEx "http://wiki.local/a.png").2.entries
        "http://wiki.local/a.png" = some none ∧
    (imgproc.fetch netOkEx
        (imgproc.fetch netFailEx emptyCacheEx "http://wiki.local/a.png").2
        "http://wiki.local/a.png").1 = (none, none) :=
  ⟨rfl, rfl, rfl⟩

/-- On a miss `fetch` leaves the cache alone. -/
theorem lru_Get_of_fst_none {α : Type} (c : lru.Cache α) (url : String)
    (h : (c.Get url).1 = none) : c.Get url = (none, c) := by
  unfold lru.Cache.Get at h ⊢
  cases hf : assocFind c.entries url with
  | none => rfl
  | some v => rw [hf] at h; simp at h

/-- A freshly added key is a hit, provided the cache has any capacity. -/
theorem lru_Add_Get {α : Type} (c : lru.Cache α) (url : String) (v : α)
    (h : 0 < c.cap) : ((c.Add url v).Get url).1 = some v := by
  unfold lru.Cache.Add lru.Cache.Get
  cases hc : c.cap with
  | zero => omega
  | succ n => simp [List.take_succ_cons, assocFind]

/-- A cache hit returns the stored pointer with a nil error. -/
theorem fetch_hit (net : String → Except String mimed)
    (c : lru.Cache (Option mimed)) (url : String) (m : Option mimed)
    (h : (c.Get url).1 = some m) : (imgproc.fetch net c url).1 = (m, none) := by
  rcases hg : c.Get url with ⟨f, s⟩
  rw [hg] at h
  simp only at h
  subst h
  unfold imgproc.fetch
  rw [hg]

/-- A miss whose fetch fails returns the error and adds the nil pointer
under the key. -/
theorem fetch_miss_error (net : String → Except String mimed)
    (c : lru.Cache (Option mimed)) (url e : String)
    (h1 : (c.Get url).1 = none) (h2 : net url = Except.error e) :
    imgproc.fetch net c url = ((none, some e), c.Add url none) := by
  have h0 : c.Get url = (none, c) := lru_Get_of_fst_none c url h1
  unfold imgproc.fetch
  rw [h0, h2]

/-- C2: after `newMimedFromUrl` fails inside `fetch` for a URL, the nil
pointer is stored in the LRU cache under that URL; every subsequent `get`
of the URL is then a cache hit returning the nil payload with a nil error,
whatever the underlying source would now do (no new network fetch is
attempted), and rendering that payload dereferences nil inside
`mimed.WriteTo` — a panic, modelled as `none`. -/
theorem failed_fetch_poisons_cache
    (net net2 : String → Except String mimed) (c : lru.Cache (Option mimed))
    (url e : String) (hcap : 0 < c.cap) (hmiss : (c.Get url).1 = none)
    (herr : net url = Except.error e) :
    imgproc.fetch net c url = ((none, some e), c.Add url none) ∧
    ((imgproc.fetch net c url).2.Get url).1 = some none ∧
    (imgproc.get net2 (imgproc.fetch net c url).2 url).1 = (none, none) ∧
    imageTo.WriteTo (imgproc.get net2 (imgproc.fetch net c url).2 url).1.1 =
      none := by
  have hf := fetch_miss_error net c url e hmiss herr
  have hhit : (((c.Add url none).Get url).1 : Option (Option mimed)) =
      some none := lru_Add_Get c url none hcap
  have hget : (imgproc.get net2 (c.Add url none) url).1 = (none, none) :=
    fetch_hit net2 _ url none hhit
  refine ⟨hf, ?_, ?_, ?_⟩
  · rw [hf]; exact hhit
  · rw [hf]; exact hget
  · rw [hf]
    have : (imgproc.get net2 (c.Add url none) url).1.1 = none := by
      rw [hget]
    rw [this]
    rfl

/-- Witness for C2: a capacity-256 empty cache, a failing fetch, then a
retry against a now-healthy source still yields the nil payload. -/
theorem failed_fetch_poisons_cache_witness :
    imgproc.fetch netFailEx emptyCacheEx "u" =
        ((none, some "cannot GET: connection refused"),
          emptyCacheEx.Add "u" none) ∧
    ((imgproc.fetch netFailEx emptyCacheEx "u").2.Get "u").1 = some none ∧
    (imgproc.get netOkEx (imgproc.fetch netFailEx emptyCacheEx "u").2 "u").1 =
        (none, none) ∧
    imageTo.WriteTo
        (imgproc.get netOkEx (imgproc.fetch netFailEx emptyCacheEx "u").2 "u").1.1 =
      none :=
  failed_fetch_poisons_cache netFailEx netOkEx emptyCacheEx "u"
    "cannot GET: connection refused" (by decide) rfl rfl

/-! ## Rendering and pipeline claims (src/main.go) -/

/-- C9: an embedded image whose fetch fails renders as the literal marker
`" [image unavailable] "` at its position while the surrounding document
still renders; an image whose fetch succeeds renders as an `img` tag whose
source is the data URI `data:<mime>;base64,<payload>`. -/
theorem embed_marker_or_datauri :
    (∀ (get : String → Option mimed × Option String)
        (domain : String) (attrs : List (String × String)) (e t1 t2 : String),
        nodeGetAttr attrs "src" ≠ "" →
        (get (domain ++ nodeGetAttr attrs "src")).2 = some e →
        renderText get domain
            (HNode.container
              [HNode.text t1, HNode.elem "img" attrs [], HNode.text t2]) =
          some (trimSpace t1 ++ (" [image unavailable] " ++ trimSpace t2))) ∧
    (∀ (get : String → Option mimed × Option String)
        (domain : String) (attrs : List (String × String)) (m : mimed),
        nodeGetAttr attrs "src" ≠ "" →
        get (domain ++ nodeGetAttr attrs "src") = (some m, none) →
        renderText get domain (HNode.elem "img" attrs []) =
          some ("<img src=\"" ++
            ("data:" ++ m.mime ++ ";base64," ++ base64Encode m.data) ++
            "\" />")) := by
  constructor
  · intro get domain attrs e t1 t2 hsrc hget
    rcases hg : get (domain ++ nodeGetAttr attrs "src") with ⟨m0, err0⟩
    rw [hg] at hget
    simp only at hget
    subst hget
    simp only [renderText, renderChildren, elemWraps]
    rw [if_neg hsrc, hg]
    simp
  · intro get domain attrs m hsrc hget
    simp only [renderText, renderChildren, elemWraps]
    rw [if_neg hsrc, hget]
    simp [imageTo.WriteTo, mimed.WriteTo]

/-- A fetcher result function where every fetch fails. -/
def getFailEx : String → Option mimed × Option String :=
  fun _ => (none, some "cannot GET: connection refused")

/-- A fetcher result function where every fetch succeeds with a small
PNG. -/
def getOkEx : String → Option mimed × Option String :=
  fun _ => (some ⟨"image/png", [77]⟩, none)

/-- Witness for C9: a small document around a failing embed renders with
the marker, and a lone successful embed renders the data URI. -/
theorem embed_marker_or_datauri_witness :
    renderText getFailEx "http://wiki.local"
        (HNode.container
          [HNode.text "Hello", HNode.elem "img" [("src", "/a.png")] [],
            HNode.text "World"]) =
      some (trimSpace "Hello" ++
        (" [image unavailable] " ++ trimSpace "World")) ∧
    renderText getOkEx "http://wiki.local"
        (HNode.elem "img" [("src", "/a.png")] []) =
      some ("<img src=\"" ++
        ("data:" ++ "image/png" ++ ";base64," ++ base64Encode [77]) ++
        "\" />") :=
  ⟨embed_marker_or_datauri.1 getFailEx "http://wiki.local"
      [("src", "/a.png")] "cannot GET: connection refused" "Hello" "World"
      (by decide) rfl,
   embed_marker_or_datauri.2 getOkEx "http://wiki.local"
      [("src", "/a.png")] ⟨"image/png", [77]⟩ (by decide) rfl⟩

/-- C10: a failure to read a document's content is logged and the document
skipped, the loop continuing with the remaining documents; a failure in
extraction after the content was read is fatal and terminates the whole
process, leaving the remaining documents unprocessed. -/
theorem read_failure_skips_extract_failure_fatal :
    (∀ (readPage processPage : String → Except String String)
        (url : String) (rest acc : List String) (e : String),
        readPage url = Except.error e →
        processor.process readPage processPage (url :: rest) acc =
          processor.process readPage processPage rest acc) ∧
    (∀ (readPage processPage : String → Except String String)
        (url : String) (rest acc : List String) (content e : String),
        readPage url = Except.ok content →
        processPage content = Except.error e →
        processor.process readPage processPage (url :: rest) acc =
          procOutcome.fatal e) := by
  constructor
  · intro rp pp url rest acc e h
    conv_lhs => rw [processor.process]
    rw [h]
  · intro rp pp url rest acc content e h1 h2
    conv_lhs => rw [processor.process]
    simp only [h1, h2]

/-- A page reader failing on one specific URL. -/
def readPageEx : String → Except String String :=
  fun u => if u = "bad" then Except.error "cannot read page" else Except.ok u

/-- An extractor failing on one specific page content. -/
def processPageEx : String → Except String String :=
  fun c => if c = "broken" then Except.error "cannot extract" else Except.ok c

/-- Witness for C10: the unreadable URL is skipped and the loop goes on;
the unextractable page kills the run. -/
theorem read_failure_skips_extract_failure_fatal_witness :
    processor.process readPageEx processPageEx ["bad", "good"] [] =
        processor.process readPageEx processPageEx ["good"] [] ∧
    processor.process readPageEx processPageEx ["broken", "good"] [] =
      procOutcome.fatal "cannot extract" :=
  ⟨read_failure_skips_extract_failure_fatal.1 readPageEx processPageEx
      "bad" ["good"] [] "cannot read page" rfl,
   read_failure_skips_extract_failure_fatal.2 readPageEx processPageEx
      "broken" ["good"] [] "broken" "cannot extract" rfl rfl⟩

end WikiExtract
